import Mathlib

/-!
Verification of the ImageEditingAPI repository (Go): a shallow embedding of
the asynchronous image-processing pipeline consisting of the Submission /
Status / Download HTTP handlers (src/App/api/main.go) and the queue worker
(src/App/worker/main.go, the PostgreSQL-backed variant of the worker, which
is the one the API's queue name and message format correspond to).

Go strings are modelled as lists of characters; Go `image.Image` values are
modelled by their bounds together with their `At` pixel function; the
fallible parts of the handlers (database, queue, filesystem) are modelled by
explicit outcome parameters.
-/

/- Go strings, modelled as lists of characters. -/
abbrev GoStr := List Char

/- Conversion from a Lean string literal to the Go string model. -/
def gs (s : String) : GoStr := s.data

/- Model of Go strings.Split with a one-character separator: splits around
every occurrence of the separator, keeping empty fields. -/
def goSplit (sep : Char) : GoStr → List GoStr
  | [] => [[]]
  | c :: rest =>
    match goSplit sep rest with
    | [] => [[]]
    | p :: ps => if c = sep then [] :: p :: ps else (c :: p) :: ps

/- Decimal digit test, as used by strconv parsing. -/
def isDigit (c : Char) : Bool := '0' ≤ c && c ≤ '9'

/- Numeric value of an all-digit string (most significant digit first). -/
def digitsVal (s : GoStr) : Nat :=
  s.foldl (fun acc c => acc * 10 + (c.toNat - 48)) 0

/- Model of Go strconv.ParseUint(s, 10, 32): a nonempty, all-decimal-digit
string whose value fits in 32 bits; no sign, no spaces, no underscores. -/
def parseUint32 (s : GoStr) : Option Nat :=
  if s ≠ [] ∧ s.all isDigit ∧ digitsVal s < 2 ^ 32 then some (digitsVal s)
  else none

/- Model of Go strconv.Atoi (ParseInt base 10, 64-bit): an optional sign
followed by a nonempty all-digit string, range-checked against int64. -/
def parseAtoi (s : GoStr) : Option Int :=
  match s with
  | '+' :: rest =>
    if rest ≠ [] ∧ rest.all isDigit ∧ digitsVal rest ≤ 2 ^ 63 - 1 then
      some (digitsVal rest)
    else none
  | '-' :: rest =>
    if rest ≠ [] ∧ rest.all isDigit ∧ digitsVal rest ≤ 2 ^ 63 then
      some (-(digitsVal rest : Int))
    else none
  | _ =>
    if s ≠ [] ∧ s.all isDigit ∧ digitsVal s ≤ 2 ^ 63 - 1 then
      some (digitsVal s)
    else none

/- Model of Go colors (the color.Color interface values that occur in this
program): a concrete color.RGBA (8-bit premultiplied components), a concrete
color.Gray (8-bit luminance), or any other implementation, identified by the
16-bit quadruple its RGBA() method returns. -/
inductive GoColor
  | rgba (r g b a : Nat)
  | gray (y : Nat)
  | generic (r g b a : Nat)
deriving DecidableEq

/- The RGBA() method of the color interface: 16-bit alpha-premultiplied
components. 8-bit components v are widened to v * 0x101. -/
def GoColor.rgba64 : GoColor → Nat × Nat × Nat × Nat
  | .rgba r g b a => (r * 257, g * 257, b * 257, a * 257)
  | .gray y => (y * 257, y * 257, y * 257, 65535)
  | .generic r g b a => (r, g, b, a)

/- Well-formedness of a modelled color: component ranges of the Go types
(uint8 fields for RGBA and Gray, uint16-range RGBA() results otherwise). -/
def GoColor.wf : GoColor → Prop
  | .rgba r g b a => r ≤ 255 ∧ g ≤ 255 ∧ b ≤ 255 ∧ a ≤ 255
  | .gray y => y ≤ 255
  | .generic r g b a => r ≤ 65535 ∧ g ≤ 65535 ∧ b ≤ 65535 ∧ a ≤ 65535

instance (c : GoColor) : Decidable c.wf := by
  cases c <;> simp only [GoColor.wf] <;> infer_instance

/- A color reduced to its stored 8-bit RGBA depth (what color.RGBAModel
keeps of it); two colors with the same value here are the same pixel at the
8-bit depth in which images in this program are stored and encoded. -/
def toRGBA8 (c : GoColor) : Nat × Nat × Nat × Nat :=
  match c.rgba64 with
  | (r, g, b, a) => (r / 256, g / 256, b / 256, a / 256)

/- Model of Go color.GrayModel.Convert: a Gray color is returned unchanged,
anything else is converted through its RGBA() values by the stdlib formula
y = (19595 r + 38470 g + 7471 b + 2^15) >> 24, truncated to uint8. -/
def grayModel (c : GoColor) : GoColor :=
  match c with
  | .gray _ => c
  | _ =>
    match c.rgba64 with
    | (r, g, b, _) => .gray ((19595 * r + 38470 * g + 7471 * b + 2 ^ 15) / 2 ^ 24 % 256)

/- Model of Go color.RGBAModel.Convert: an RGBA color is returned unchanged,
anything else keeps the top 8 bits of each RGBA() component. -/
def rgbaModel (c : GoColor) : GoColor :=
  match c with
  | .rgba _ _ _ _ => c
  | _ =>
    match c.rgba64 with
    | (r, g, b, a) => .rgba (r / 256 % 256) (g / 256 % 256) (b / 256 % 256) (a / 256 % 256)

/- Model of a Go image.Image: its Bounds() rectangle (Min inclusive, Max
exclusive) and its At pixel function. -/
@[ext]
structure GoImage where
  minX : Int
  minY : Int
  maxX : Int
  maxY : Int
  At : Int → Int → GoColor

/- Membership of a point in the bounds rectangle of an image. -/
def GoImage.inBounds (img : GoImage) (x y : Int) : Prop :=
  img.minX ≤ x ∧ x < img.maxX ∧ img.minY ≤ y ∧ y < img.maxY

instance (img : GoImage) (x y : Int) : Decidable (img.inBounds x y) := by
  unfold GoImage.inBounds; infer_instance

/- applyGrayscale from src/App/worker/main.go: allocates image.NewGray over
the same bounds (zero outside the written area) and sets every in-bounds
pixel to GrayModel.Convert of the source pixel. -/
def applyGrayscale (img : GoImage) : GoImage where
  minX := img.minX
  minY := img.minY
  maxX := img.maxX
  maxY := img.maxY
  At := fun x y =>
    if img.inBounds x y then grayModel (img.At x y) else GoColor.gray 0

/- Modelled from the spec: resize.Resize (the external nfnt/resize library,
Lanczos3 kernel) is an external collaborator, not code of this repository;
per the spec the output image has exactly the requested pixel dimensions,
with bounds based at the origin. Its interpolated pixel content is modelled
only nominally — the claims rely solely on the output bounds. -/
def resizeResize (w h : Nat) (img : GoImage) : GoImage where
  minX := 0
  minY := 0
  maxX := (w : Int)
  maxY := (h : Int)
  At := fun x y => rgbaModel (img.At (img.minX + x) (img.minY + y))

/- applyResize from src/App/worker/main.go: splits params on the single
character x into exactly two fields, parses both with ParseUint(_, 10, 32),
rejects parse failures and zero dimensions with one combined error, and
otherwise calls resize.Resize. -/
def applyResize (img : GoImage) (params : GoStr) : Except GoStr GoImage :=
  match goSplit 'x' params with
  | [ws, hs] =>
    match parseUint32 ws, parseUint32 hs with
    | some w, some h =>
      if w = 0 ∨ h = 0 then
        Except.error (gs ("invalid width or height value in resize parameters or value is zero"))
      else Except.ok (resizeResize w h img)
    | _, _ =>
      Except.error (gs ("invalid width or height value in resize parameters or value is zero"))
  | _ => Except.error (gs ("invalid resize parameters: expected \x27widthxheight\x27"))

/- Error text for a crop coordinate that fails strconv.Atoi (the Go message
interpolates the offending field). -/
def cropCoordErr (p : GoStr) : GoStr :=
  gs ("invalid coordinate value in crop parameters: ") ++ p

/- applyCrop from src/App/worker/main.go (the PostgreSQL-backed worker):
splits params on commas into exactly four fields, parses each with Atoi
(stopping at the first failure), validates the rectangle against the image
bounds, and copies the selected pixels into a new RGBA image re-based at
the origin. The Go out-of-bounds message carries a rendering of the bounds
rectangle, elided here. -/
def applyCrop (img : GoImage) (params : GoStr) : Except GoStr GoImage :=
  match goSplit ',' params with
  | [p0, p1, p2, p3] =>
    match parseAtoi p0 with
    | none => Except.error (cropCoordErr p0)
    | some sx =>
      match parseAtoi p1 with
      | none => Except.error (cropCoordErr p1)
      | some sy =>
        match parseAtoi p2 with
        | none => Except.error (cropCoordErr p2)
        | some ex =>
          match parseAtoi p3 with
          | none => Except.error (cropCoordErr p3)
          | some ey =>
            if sx ≥ ex ∨ sy ≥ ey ∨ sx < 0 ∨ sy < 0 ∨ ex > img.maxX ∨ ey > img.maxY then
              Except.error (gs ("crop coordinates are out of bounds or invalid"))
            else
              Except.ok
                { minX := 0
                  minY := 0
                  maxX := ex - sx
                  maxY := ey - sy
                  At := fun x y =>
                    if 0 ≤ x ∧ x < ex - sx ∧ 0 ≤ y ∧ y < ey - sy then
                      rgbaModel (img.At (sx + x) (sy + y))
                    else GoColor.rgba 0 0 0 0 }
  | _ => Except.error (gs ("invalid crop parameters: expected \x27startX,startY,endX,endY\x27"))

/- processImage from src/App/worker/main.go: case-sensitive dispatch on the
action name. -/
def processImage (img : GoImage) (action params : GoStr) : Except GoStr GoImage :=
  if action = gs ("grayscale") then Except.ok (applyGrayscale img)
  else if action = gs ("resize") then applyResize img params
  else if action = gs ("crop") then applyCrop img params
  else Except.error (gs ("unknown image processing action: ") ++ action)

/- The resize parameter contract of the spec: exactly two fields around one
x, both parsing as 32-bit unsigned integers, both nonzero. -/
def resizeParamsGood (params : GoStr) : Prop :=
  ∃ ws hs w h, goSplit 'x' params = [ws, hs] ∧
    parseUint32 ws = some w ∧ parseUint32 hs = some h ∧ w ≠ 0 ∧ h ≠ 0

/- A row of the jobs table (src/App/api/main.go CREATE TABLE jobs):
output_path is nullable; created_at plays no role in any claim and is
omitted. -/
structure JobRecord where
  status : GoStr
  input_path : GoStr
  output_path : Option GoStr
  action : GoStr
  params : GoStr
deriving DecidableEq

/- The jobs table, keyed by id. -/
def JobStore := GoStr → Option JobRecord

/- updatePGStatus from src/App/worker/main.go: UPDATE jobs SET status = $1,
output_path = $2 WHERE id = $3 — an unconditional update of the matching
row, with no guard on the current status. -/
def updatePGStatus (jobID status resultData : GoStr) (db : JobStore) : JobStore :=
  fun id =>
    if id = jobID then
      (db id).map fun r => { r with status := status, output_path := some resultData }
    else db id

/- The queue message built by submitJobHandler (src/App/api/main.go):
fmt.Sprintf of the four fields joined by the | delimiter. -/
def encodeTask (jobID filePath action params : GoStr) : GoStr :=
  jobID ++ gs ("|") ++ filePath ++ gs ("|") ++ action ++ gs ("|") ++ params

/- The worker-side parse of a queue message (processTask in
src/App/worker/main.go): split on |, require at least three fields, take
the fourth field as params when present and the empty string otherwise;
any further fields are dropped. -/
def parseTaskMessage (msg : GoStr) : Option (GoStr × GoStr × GoStr × GoStr) :=
  match goSplit '|' msg with
  | jobID :: inputPath :: action :: rest =>
    some (jobID, inputPath, action, match rest with | p :: _ => p | [] => [])
  | _ => none

/- Outcomes of the worker's interactions with the filesystem while handling
one task: os.Open of the input, image.Decode, and saveImageToJPEG; error
values carry the Go error text. The time.Now().Format("150405") stamp used
in the output file name is also environment data. -/
structure WorkerEnv where
  openResult : Except GoStr Unit
  decodeResult : Except GoStr GoImage
  saveResult : Except GoStr Unit
  timeStr : GoStr

/- Observable outcome of processTask: the sequence of updatePGStatus calls
(status, result data) it makes, in order, and whether deletion of the input
artifact was attempted. -/
structure TaskResult where
  updates : List (GoStr × GoStr)
  removeAttempted : Bool
deriving DecidableEq

/- processTask from src/App/worker/main.go (the PostgreSQL-backed worker):
parse the message (malformed messages are logged and skipped with no status
update); set PROCESSING; open, decode, transform and save, recording the
first failure; on failure set FAILED with the diagnostic text in place of
the output path; on success set COMPLETED with the output path. The input
artifact deletion is attempted on both paths. processTask is a total
function: it returns in every case, so the worker loop always proceeds to
the next message. -/
def processTask (msg : GoStr) (env : WorkerEnv) : TaskResult :=
  match parseTaskMessage msg with
  | none => { updates := [], removeAttempted := false }
  | some (jobID, inputPath, action, params) =>
    match env.openResult with
    | Except.error e =>
      { updates := [(gs ("PROCESSING"), []),
          (gs ("FAILED"), gs ("file not found at ") ++ inputPath ++ gs (": ") ++ e)]
        removeAttempted := true }
    | Except.ok _ =>
      match env.decodeResult with
      | Except.error e =>
        { updates := [(gs ("PROCESSING"), []),
            (gs ("FAILED"), gs ("error decoding image: ") ++ e)]
          removeAttempted := true }
      | Except.ok img =>
        match processImage img action params with
        | Except.error e =>
          { updates := [(gs ("PROCESSING"), []),
              (gs ("FAILED"), gs ("error during image processing (") ++ action ++
                gs (" with params \x27") ++ params ++ gs ("\x27): ") ++ e)]
            removeAttempted := true }
        | Except.ok _ =>
          match env.saveResult with
          | Except.error e =>
            { updates := [(gs ("PROCESSING"), []),
                (gs ("FAILED"), gs ("error saving processed image: ") ++ e)]
              removeAttempted := true }
          | Except.ok _ =>
            { updates := [(gs ("PROCESSING"), []),
                (gs ("COMPLETED"), gs ("storage/") ++ jobID ++ gs ("_") ++ action ++
                  gs ("_") ++ env.timeStr ++ gs (".jpg"))]
              removeAttempted := true }

/- The success path of one worker iteration: every fallible stage of
processTask succeeds. -/
def taskSucceeds (env : WorkerEnv) (action params : GoStr) : Prop :=
  env.openResult = Except.ok () ∧
  ∃ img, env.decodeResult = Except.ok img ∧
    (∃ out, processImage img action params = Except.ok out) ∧
    env.saveResult = Except.ok ()

/- ASCII lowering, as strings.ToLower acts on the ASCII action names this
program compares against (Go lowers full Unicode; the two agree on ASCII). -/
def goToLowerChar (c : Char) : Char :=
  if 'A' ≤ c ∧ c ≤ 'Z' then Char.ofNat (c.toNat + 32) else c

def goToLower (s : GoStr) : GoStr := s.map goToLowerChar

/- The submission-side action validation (src/App/api/main.go): membership
of the lowercased action in the allowedActions map. -/
def allowedAction (a : GoStr) : Bool :=
  goToLower a = gs ("grayscale") ∨ goToLower a = gs ("resize") ∨ goToLower a = gs ("crop")

/- Durable side effects submitJobHandler attempts, in program order. -/
inductive SubmitEffect
  | createFile
  | copyFile
  | insertJob
  | pushQueue
deriving DecidableEq

/- Request data and outcomes of the fallible steps of submitJobHandler. -/
structure SubmitEnv where
  methodPost : Bool
  formOk : Bool
  fileOk : Bool
  action : GoStr
  params : GoStr
  filenameBase : GoStr
  jobID : GoStr
  createOk : Bool
  copyOk : Bool
  insertOk : Bool
  pushOk : Bool

/- Observable outcome of submitJobHandler: the HTTP status code, the
durable effects attempted in order, the row present in the store afterwards
(none when the INSERT failed or was never reached — the handler contains no
DELETE, so a row that was inserted is never rolled back), and the queue
message made visible to workers. -/
structure SubmitResult where
  httpStatus : Nat
  effects : List SubmitEffect
  insertedRecord : Option JobRecord
  queuedMessage : Option GoStr

/- submitJobHandler from src/App/api/main.go: method check, multipart form
parse, file field, action validation against the lowercased name, upload
persisted under storage/<jobID>_<base>, INSERT of the QUEUED row, then
RPush of the delimiter-joined message; 500 when the INSERT fails (nothing
queued), 503 when the push fails after the row exists, 202 otherwise. -/
def submitJobHandler (env : SubmitEnv) : SubmitResult :=
  if !env.methodPost then
    { httpStatus := 405, effects := [], insertedRecord := none, queuedMessage := none }
  else if !env.formOk then
    { httpStatus := 400, effects := [], insertedRecord := none, queuedMessage := none }
  else if !env.fileOk then
    { httpStatus := 400, effects := [], insertedRecord := none, queuedMessage := none }
  else if !(allowedAction env.action) then
    { httpStatus := 400, effects := [], insertedRecord := none, queuedMessage := none }
  else
    let filePath := gs ("storage/") ++ env.jobID ++ gs ("_") ++ env.filenameBase
    if !env.createOk then
      { httpStatus := 500, effects := [SubmitEffect.createFile]
        insertedRecord := none, queuedMessage := none }
    else if !env.copyOk then
      { httpStatus := 500, effects := [SubmitEffect.createFile, SubmitEffect.copyFile]
        insertedRecord := none, queuedMessage := none }
    else if !env.insertOk then
      { httpStatus := 500
        effects := [SubmitEffect.createFile, SubmitEffect.copyFile, SubmitEffect.insertJob]
        insertedRecord := none, queuedMessage := none }
    else
      let row : JobRecord :=
        { status := gs ("QUEUED"), input_path := filePath, output_path := none
          action := env.action, params := env.params }
      let msg := encodeTask env.jobID filePath env.action env.params
      if !env.pushOk then
        { httpStatus := 503
          effects := [SubmitEffect.createFile, SubmitEffect.copyFile,
            SubmitEffect.insertJob, SubmitEffect.pushQueue]
          insertedRecord := some row, queuedMessage := none }
      else
        { httpStatus := 202
          effects := [SubmitEffect.createFile, SubmitEffect.copyFile,
            SubmitEffect.insertJob, SubmitEffect.pushQueue]
          insertedRecord := some row, queuedMessage := some msg }

/- HTTP response of the status endpoint. -/
structure StatusResult where
  httpStatus : Nat
  body : GoStr
deriving DecidableEq

/- getJobStatusHandler from src/App/api/main.go: 404 with a JSON body for
an unknown id; otherwise 200 with a hand-concatenated body — the base
object is left unclosed, each of the COMPLETED and FAILED branches appends
its extra field AND a closing brace, and one more closing brace is always
appended afterwards. -/
def getJobStatusHandler (db : JobStore) (idStr : GoStr) : StatusResult :=
  if idStr = [] then
    { httpStatus := 400, body := gs ("Missing \x27id\x27 parameter") }
  else
    match db idStr with
    | none =>
      { httpStatus := 404
        body := gs ("\x7b\"job_id\": \"") ++ idStr ++
          gs ("\", \"status\": \"UNKNOWN\", \"message\": \"Job not found.\"\x7d") }
    | some row =>
      let base := gs ("\x7b\"job_id\": \"") ++ idStr ++ gs ("\", \"status\": \"") ++
        row.status ++ gs ("\", \"action\": \"") ++ row.action ++ gs ("\"")
      let withExtra :=
        if row.status = gs ("COMPLETED") then
          base ++ gs (", \"download_url\": \"/job/download?id=") ++ idStr ++ gs ("\"\x7d")
        else if row.status = gs ("FAILED") then
          base ++ gs (", \"error_message\": \"") ++ row.output_path.getD [] ++ gs ("\"\x7d")
        else base
      { httpStatus := 200, body := withExtra ++ gs ("\x7d") }

/- HTTP response of the download endpoint: a body for the error signals, or
the path of the file served with image/jpeg content type. -/
structure DownloadResult where
  httpStatus : Nat
  body : GoStr
  servedFile : Option GoStr
deriving DecidableEq

/- downloadProcessedImageHandler from src/App/api/main.go: 404 for an
unknown id; 202 with a pending message while the row is not COMPLETED (or
has no output path yet); for a COMPLETED row with an output path, serve the
file if os.Stat finds it and 404 with a distinct message otherwise. -/
def downloadProcessedImageHandler (db : JobStore) (fileExists : GoStr → Bool)
    (idStr : GoStr) : DownloadResult :=
  if idStr = [] then
    { httpStatus := 400, body := gs ("Missing \x27id\x27 parameter"), servedFile := none }
  else
    match db idStr with
    | none =>
      { httpStatus := 404, body := gs ("Job not found."), servedFile := none }
    | some row =>
      match row.output_path with
      | none =>
        { httpStatus := 202
          body := gs ("Job is not completed yet. Current status: ") ++ row.status
          servedFile := none }
      | some p =>
        if row.status = gs ("COMPLETED") then
          if fileExists p then
            { httpStatus := 200, body := [], servedFile := some p }
          else
            { httpStatus := 404, body := gs ("Processed file not found on disk.")
              servedFile := none }
        else
          { httpStatus := 202
            body := gs ("Job is not completed yet. Current status: ") ++ row.status
            servedFile := none }

/- Concrete fixtures used by witnesses and counterexamples. -/

/- A completed job row. -/
def rec0 : JobRecord :=
  { status := gs ("COMPLETED"), input_path := gs ("storage/in.png")
    output_path := some (gs ("storage/out.jpg")), action := gs ("crop")
    params := gs ("0,0,1,1") }

/- A queued job row. -/
def recQ : JobRecord :=
  { status := gs ("QUEUED"), input_path := gs ("storage/in.png")
    output_path := none, action := gs ("grayscale"), params := [] }

/- A store holding the completed job under id j1 and the queued job under
id j2. -/
def db0 : JobStore := fun id =>
  if id = gs ("j1") then some rec0
  else if id = gs ("j2") then some recQ
  else none

/- A 3 by 2 test image of constant well-formed RGBA pixels. -/
def img2 : GoImage where
  minX := 0
  minY := 0
  maxX := 3
  maxY := 2
  At := fun _ _ => GoColor.rgba 10 20 30 255

/- A worker environment in which every filesystem stage succeeds and the
decoded image is img2. -/
def envOk : WorkerEnv :=
  { openResult := Except.ok (), decodeResult := Except.ok img2
    saveResult := Except.ok (), timeStr := gs ("120000") }

/- A submission request carrying the mixed-case action Grayscale, with
every fallible step succeeding. -/
def envG : SubmitEnv :=
  { methodPost := true, formOk := true, fileOk := true
    action := gs ("Grayscale"), params := [], filenameBase := gs ("a.png")
    jobID := gs ("j1"), createOk := true, copyOk := true
    insertOk := true, pushOk := true }

/- The same request with a failing INSERT. -/
def envInsertFail : SubmitEnv := { envG with insertOk := false }

/- The same request with a failing queue push. -/
def envPushFail : SubmitEnv := { envG with pushOk := false }

/- The crop parameter parse of the spec: exactly four comma-separated
fields, each parsing as an integer via Atoi. -/
def cropParses (params : GoStr) (x0 y0 x1 y1 : Int) : Prop :=
  ∃ p0 p1 p2 p3, goSplit ',' params = [p0, p1, p2, p3] ∧
    parseAtoi p0 = some x0 ∧ parseAtoi p1 = some y0 ∧
    parseAtoi p2 = some x1 ∧ parseAtoi p3 = some y1

theorem goSplit_ne_nil (sep : Char) (s : GoStr) : goSplit sep s ≠ [] := by
  cases s with
  | nil => simp [goSplit]
  | cons c rest =>
    simp only [goSplit]
    cases goSplit sep rest with
    | nil => simp
    | cons p ps =>
      by_cases h : c = sep <;> simp [h]

theorem goSplit_no_sep (sep : Char) (s : GoStr) (h : sep ∉ s) :
    goSplit sep s = [s] := by
  induction s with
  | nil => rfl
  | cons c rest ih =>
    simp only [List.mem_cons, not_or] at h
    simp only [goSplit, ih h.2]
    have hc : ¬ c = sep := fun hcs => h.1 hcs.symm
    simp [hc]

theorem goSplit_append (sep : Char) (a b : GoStr) (h : sep ∉ a) :
    goSplit sep (a ++ sep :: b) = a :: goSplit sep b := by
  induction a with
  | nil =>
    simp only [List.nil_append, goSplit]
    cases hg : goSplit sep b with
    | nil => exact absurd hg (goSplit_ne_nil sep b)
    | cons p ps => simp
  | cons c rest ih =>
    simp only [List.mem_cons, not_or] at h
    have hc : ¬ c = sep := fun hcs => h.1 hcs.symm
    have ih2 := ih h.2
    simp only [List.cons_append, goSplit, hc, if_false]
    rw [show rest.append (sep :: b) = rest ++ sep :: b from rfl, ih2]

theorem grayModel_idem (c : GoColor) : grayModel (grayModel c) = grayModel c := by
  cases c <;> rfl

/-- C9: the grayscale transform is idempotent — applyGrayscale applied twice
to any image equals (bounds and every pixel of) applyGrayscale applied
once. -/
theorem applyGrayscale_idempotent (img : GoImage) :
    applyGrayscale (applyGrayscale img) = applyGrayscale img := by
  ext x y
  · rfl
  · rfl
  · rfl
  · rfl
  · show (if (applyGrayscale img).inBounds x y then
        grayModel ((applyGrayscale img).At x y) else GoColor.gray 0) =
      (if img.inBounds x y then grayModel (img.At x y) else GoColor.gray 0)
    have hb : (applyGrayscale img).inBounds x y ↔ img.inBounds x y := Iff.rfl
    by_cases h : img.inBounds x y
    · simp only [hb, h, if_pos]
      show grayModel (if img.inBounds x y then grayModel (img.At x y) else GoColor.gray 0) =
        grayModel (img.At x y)
      rw [if_pos h, grayModel_idem]
    · simp [hb, h]

theorem mul257_div256 (m : Nat) (h : m ≤ 255) : m * 257 / 256 = m := by
  have e : m * 257 = 256 * m + m := by ring
  rw [e, Nat.mul_add_div (by norm_num), Nat.div_eq_of_lt (by omega)]
  omega

theorem div256_roundtrip (k : Nat) (hk : k ≤ 65535) :
    k / 256 % 256 * 257 / 256 = k / 256 := by
  have h1 : k / 256 ≤ 255 := by omega
  rw [Nat.mod_eq_of_lt (by omega), mul257_div256 _ h1]

theorem toRGBA8_rgbaModel (c : GoColor) (hc : c.wf) :
    toRGBA8 (rgbaModel c) = toRGBA8 c := by
  cases c with
  | rgba r g b a => rfl
  | gray y =>
    have h : y ≤ 255 := hc
    simp only [rgbaModel, GoColor.rgba64, toRGBA8]
    rw [div256_roundtrip (y * 257) (by omega), div256_roundtrip 65535 (by norm_num)]
  | generic r g b a =>
    obtain ⟨hr, hg, hb, ha⟩ := hc
    simp only [rgbaModel, GoColor.rgba64, toRGBA8]
    rw [div256_roundtrip r hr, div256_roundtrip g hg, div256_roundtrip b hb,
      div256_roundtrip a ha]

/-- C3: applyResize returns an error exactly when the params string is
malformed (not two 32-bit unsigned integers joined by one x) or a parsed
dimension is zero, and on success the output bounds are exactly the
requested width and height (origin-based). -/
theorem applyResize_spec (img : GoImage) (params : GoStr) :
    ((∃ out, applyResize img params = Except.ok out) ↔ resizeParamsGood params)
    ∧ (∀ ws hs w h out, goSplit 'x' params = [ws, hs] →
        parseUint32 ws = some w → parseUint32 hs = some h →
        applyResize img params = Except.ok out →
        out.minX = 0 ∧ out.minY = 0 ∧ out.maxX = (w : Int) ∧ out.maxY = (h : Int)) := by
  constructor
  · constructor
    · rintro ⟨out, hout⟩
      rw [applyResize.eq_def] at hout
      split at hout <;> try exact Except.noConfusion hout
      split at hout <;> try exact Except.noConfusion hout
      split at hout <;> try exact Except.noConfusion hout
      rename_i hz
      push_neg at hz
      exact ⟨_, _, _, _, by assumption, by assumption, by assumption, hz.1, hz.2⟩
    · rintro ⟨ws, hs, w, h, h1, h2, h3, hw, hh⟩
      refine ⟨resizeResize w h img, ?_⟩
      rw [applyResize.eq_def, h1]
      simp only [h2, h3]
      rw [if_neg (by tauto)]
  · intro ws hs w h out h1 h2 h3 hout
    rw [applyResize.eq_def, h1] at hout
    simp only [h2, h3] at hout
    split at hout
    · exact Except.noConfusion hout
    · injection hout with hout
      subst hout
      exact ⟨rfl, rfl, rfl, rfl⟩

theorem append_ne_nil_left (a b : GoStr) (h : a ≠ []) : a ++ b ≠ [] :=
  fun hab => h (List.append_eq_nil.mp hab).1

/- Evaluation of processTask once its message parse is known. -/
theorem processTask_eval (msg : GoStr) (env : WorkerEnv)
    (jobID inputPath action params : GoStr)
    (hp : parseTaskMessage msg = some (jobID, inputPath, action, params)) :
    processTask msg env =
      match env.openResult with
      | Except.error e =>
        { updates := [(gs ("PROCESSING"), []),
            (gs ("FAILED"), gs ("file not found at ") ++ inputPath ++ gs (": ") ++ e)]
          removeAttempted := true }
      | Except.ok _ =>
        match env.decodeResult with
        | Except.error e =>
          { updates := [(gs ("PROCESSING"), []),
              (gs ("FAILED"), gs ("error decoding image: ") ++ e)]
            removeAttempted := true }
        | Except.ok img =>
          match processImage img action params with
          | Except.error e =>
            { updates := [(gs ("PROCESSING"), []),
                (gs ("FAILED"), gs ("error during image processing (") ++ action ++
                  gs (" with params \x27") ++ params ++ gs ("\x27): ") ++ e)]
              removeAttempted := true }
          | Except.ok _ =>
            match env.saveResult with
            | Except.error e =>
              { updates := [(gs ("PROCESSING"), []),
                  (gs ("FAILED"), gs ("error saving processed image: ") ++ e)]
                removeAttempted := true }
            | Except.ok _ =>
              { updates := [(gs ("PROCESSING"), []),
                  (gs ("COMPLETED"), gs ("storage/") ++ jobID ++ gs ("_") ++ action ++
                    gs ("_") ++ env.timeStr ++ gs (".jpg"))]
                removeAttempted := true } := by
  rw [processTask.eq_def, hp]

/-- C2: on an image with origin-based bounds W by H, applyCrop succeeds
exactly when params parses as four integers x0,y0,x1,y1 with
0 ≤ x0 < x1 ≤ W and 0 ≤ y0 < y1 ≤ H (a validation error is returned
otherwise, before any pixel is copied); on success the output bounds are
exactly (x1-x0) by (y1-y0) re-based at the origin and output pixel (x,y)
equals input pixel (x0+x, y0+y) at the stored 8-bit RGBA depth. -/
theorem applyCrop_spec (img : GoImage) (params : GoStr) (W H : Int)
    (hminX : img.minX = 0) (hminY : img.minY = 0)
    (hmaxX : img.maxX = W) (hmaxY : img.maxY = H)
    (hwf : ∀ x y, (img.At x y).wf) :
    ((∃ out, applyCrop img params = Except.ok out) ↔
      ∃ x0 y0 x1 y1, cropParses params x0 y0 x1 y1 ∧
        0 ≤ x0 ∧ x0 < x1 ∧ x1 ≤ W ∧ 0 ≤ y0 ∧ y0 < y1 ∧ y1 ≤ H)
    ∧ (∀ x0 y0 x1 y1 out, cropParses params x0 y0 x1 y1 →
        applyCrop img params = Except.ok out →
        out.minX = 0 ∧ out.minY = 0 ∧ out.maxX = x1 - x0 ∧ out.maxY = y1 - y0 ∧
        ∀ x y, 0 ≤ x → x < x1 - x0 → 0 ≤ y → y < y1 - y0 →
          toRGBA8 (out.At x y) = toRGBA8 (img.At (x0 + x) (y0 + y))) := by
  constructor
  · constructor
    · rintro ⟨out, hout⟩
      rw [applyCrop.eq_def] at hout
      split at hout <;> try exact Except.noConfusion hout
      split at hout <;> try exact Except.noConfusion hout
      split at hout <;> try exact Except.noConfusion hout
      split at hout <;> try exact Except.noConfusion hout
      split at hout <;> try exact Except.noConfusion hout
      split at hout <;> try exact Except.noConfusion hout
      rename_i hz
      push_neg at hz
      obtain ⟨hxe, hye, hx0, hy0, hex, hey⟩ := hz
      exact ⟨_, _, _, _,
        ⟨_, _, _, _, by assumption, by assumption, by assumption, by assumption,
          by assumption⟩,
        hx0, hxe, by omega, hy0, hye, by omega⟩
    · rintro ⟨x0, y0, x1, y1, ⟨p0, p1, p2, p3, hsp, hp0, hp1, hp2, hp3⟩,
        hx0, hxx, hxW, hy0, hyy, hyH⟩
      cases hres : applyCrop img params with
      | ok out => exact ⟨out, rfl⟩
      | error e =>
        rw [applyCrop.eq_def, hsp] at hres
        simp only [hp0, hp1, hp2, hp3] at hres
        rw [if_neg (by omega)] at hres
        exact Except.noConfusion hres
  · rintro x0 y0 x1 y1 out ⟨p0, p1, p2, p3, hsp, hp0, hp1, hp2, hp3⟩ hout
    rw [applyCrop.eq_def, hsp] at hout
    simp only [hp0, hp1, hp2, hp3] at hout
    split at hout
    · exact Except.noConfusion hout
    · injection hout with he
      subst he
      refine ⟨rfl, rfl, rfl, rfl, ?_⟩
      intro x y hx hx2 hy hy2
      show toRGBA8 (if 0 ≤ x ∧ x < x1 - x0 ∧ 0 ≤ y ∧ y < y1 - y0 then
          rgbaModel (img.At (x0 + x) (y0 + y)) else GoColor.rgba 0 0 0 0) = _
      rw [if_pos ⟨hx, hx2, hy, hy2⟩]
      exact toRGBA8_rgbaModel _ (hwf _ _)

/-- Witness for applyCrop_spec: on the 3 by 2 test image the params 1,0,3,2
are accepted, the output is 2 by 2 at the origin, and output pixel (0,0) is
input pixel (1,0) at 8-bit depth. -/
theorem applyCrop_spec_witness :
    ∃ out, applyCrop img2 (gs ("1,0,3,2")) = Except.ok out ∧
      out.minX = 0 ∧ out.minY = 0 ∧ out.maxX = 2 ∧ out.maxY = 2 ∧
      toRGBA8 (out.At 0 0) = toRGBA8 (img2.At 1 0) := by
  have h := applyCrop_spec img2 (gs ("1,0,3,2")) 3 2 rfl rfl rfl rfl
    (fun _ _ => ⟨by norm_num, by norm_num, by norm_num, by norm_num⟩)
  have hparse : cropParses (gs ("1,0,3,2")) 1 0 3 2 :=
    ⟨gs ("1"), gs ("0"), gs ("3"), gs ("2"), by decide, by decide, by decide,
      by decide, by decide⟩
  obtain ⟨out, hout⟩ := h.1.mpr ⟨1, 0, 3, 2, hparse, by norm_num, by norm_num,
    by norm_num, by norm_num, by norm_num, by norm_num⟩
  have h2 := h.2 1 0 3 2 out hparse hout
  refine ⟨out, hout, h2.1, h2.2.1, ?_, ?_,
    h2.2.2.2.2 0 0 (by norm_num) (by norm_num) (by norm_num) (by norm_num)⟩
  · rw [h2.2.2.1]; norm_num
  · rw [h2.2.2.2.1]; norm_num

/-- Witness for applyResize_spec: params 2x5 on the test image are accepted
and the output bounds are exactly 2 by 5. -/
theorem applyResize_spec_witness :
    ∃ out, applyResize img2 (gs ("2x5")) = Except.ok out ∧
      out.minX = 0 ∧ out.minY = 0 ∧ out.maxX = 2 ∧ out.maxY = 5 := by
  have h := applyResize_spec img2 (gs ("2x5"))
  obtain ⟨out, hout⟩ := h.1.mpr ⟨gs ("2"), gs ("5"), 2, 5, by decide, by decide,
    by decide, by decide, by decide⟩
  have h2 := h.2 (gs ("2")) (gs ("5")) 2 5 out (by decide) (by decide) (by decide) hout
  refine ⟨out, hout, h2.1, h2.2.1, ?_, ?_⟩
  · rw [h2.2.2.1]; norm_num
  · rw [h2.2.2.2]; norm_num

/-- C1 counterexample: updatePGStatus is an unconditional UPDATE, so a
transition invoked on job j1, already COMPLETED (terminal), overwrites the
status with PROCESSING and replaces the stored result — neither a rejection
nor a no-op. -/
theorem updatePGStatus_overwrites_terminal :
    rec0.status = gs ("COMPLETED") ∧
    updatePGStatus (gs ("j1")) (gs ("PROCESSING")) [] db0 (gs ("j1")) =
      some { rec0 with status := gs ("PROCESSING"), output_path := some [] } ∧
    gs ("PROCESSING") ≠ gs ("COMPLETED") := by
  exact ⟨rfl, by decide, by decide⟩

/-- C1 amended: the store transition has no terminal-state guard — it is an
unconditional last-write-wins update of status and result for whatever row
matches the id — while the worker itself never issues a transition after a
terminal one within the handling of a single message: in every processTask
trace, the terminal statuses COMPLETED and FAILED occur at most as the very
last update. -/
theorem transition_last_write_wins_and_terminal_last :
    (∀ (db : JobStore) (id s r : GoStr) (row : JobRecord), db id = some row →
      updatePGStatus id s r db id =
        some { row with status := s, output_path := some r })
    ∧ (∀ (msg : GoStr) (env : WorkerEnv),
        ∀ u ∈ (processTask msg env).updates.dropLast,
          u.1 ≠ gs ("COMPLETED") ∧ u.1 ≠ gs ("FAILED")) := by
  constructor
  · intro db id s r row h
    simp [updatePGStatus, h]
  · intro msg env u hu
    rw [processTask.eq_def] at hu
    split at hu <;> (try split at hu) <;> (try split at hu) <;>
      (try split at hu) <;> (try split at hu)
    all_goals simp [List.dropLast] at hu
    all_goals (subst hu; exact ⟨by decide, by decide⟩)

/-- Witness for transition_last_write_wins_and_terminal_last at concrete
inputs: updating the QUEUED job j2 to PROCESSING rewrites its row, and the
non-final updates of a successful grayscale run are only PROCESSING. -/
theorem transition_last_write_wins_witness :
    updatePGStatus (gs ("j2")) (gs ("PROCESSING")) [] db0 (gs ("j2")) =
      some { recQ with status := gs ("PROCESSING"), output_path := some [] } ∧
    (gs ("PROCESSING"), ([] : GoStr)).1 ≠ gs ("COMPLETED") := by
  refine ⟨transition_last_write_wins_and_terminal_last.1 db0 (gs ("j2"))
    (gs ("PROCESSING")) [] recQ (by decide), ?_⟩
  exact (transition_last_write_wins_and_terminal_last.2
    (gs ("j1|storage/in.png|grayscale|")) envOk (gs ("PROCESSING"), [])
    (by decide)).1

/-- C4 counterexample: a submission whose params string 1|2 contains the
delimiter (the API validates only the action, not params) produces a queue
message whose worker-side parse truncates params to 1 — the encoded fields
are not recovered. -/
theorem queue_message_delimiter_corruption :
    parseTaskMessage
      (encodeTask (gs ("j1")) (gs ("storage/a.png")) (gs ("crop")) (gs ("1|2"))) =
      some (gs ("j1"), gs ("storage/a.png"), gs ("crop"), gs ("1")) ∧
    gs ("1") ≠ gs ("1|2") := by
  exact ⟨by decide, by decide⟩

/-- C4 amended: the queue message is the ordered four-field tuple joined
with the | delimiter, and the worker parse recovers exactly the encoded
fields provided no field contains the delimiter character itself. -/
theorem encode_parse_roundtrip (jobID filePath action params : GoStr)
    (h1 : '|' ∉ jobID) (h2 : '|' ∉ filePath) (h3 : '|' ∉ action)
    (h4 : '|' ∉ params) :
    parseTaskMessage (encodeTask jobID filePath action params) =
      some (jobID, filePath, action, params) := by
  unfold parseTaskMessage encodeTask
  have e : jobID ++ gs ("|") ++ filePath ++ gs ("|") ++ action ++ gs ("|") ++ params =
      jobID ++ '|' :: (filePath ++ '|' :: (action ++ '|' :: params)) := by
    simp [gs]
  rw [e, goSplit_append '|' jobID _ h1, goSplit_append '|' filePath _ h2,
    goSplit_append '|' action _ h3, goSplit_no_sep '|' params h4]

/-- Witness for encode_parse_roundtrip: a delimiter-free submission round
trips exactly. -/
theorem encode_parse_roundtrip_witness :
    parseTaskMessage
      (encodeTask (gs ("j1")) (gs ("storage/a.png")) (gs ("crop")) (gs ("0,0,2,1"))) =
      some (gs ("j1"), gs ("storage/a.png"), gs ("crop"), gs ("0,0,2,1")) :=
  encode_parse_roundtrip _ _ _ _ (by decide) (by decide) (by decide) (by decide)

/-- C5: in submitJobHandler the row INSERT strictly precedes the queue push
among the attempted effects; when the INSERT fails (every earlier request
step having succeeded) the response is 500 with no row stored, nothing
queued and no push attempted; when the INSERT succeeds and the push fails
the response is 503, nothing is queued, and the QUEUED row remains — the
handler contains no rollback. -/
theorem submit_insert_precedes_push (env : SubmitEnv) :
    (SubmitEffect.pushQueue ∈ (submitJobHandler env).effects →
      ∃ l1 l2, (submitJobHandler env).effects = l1 ++ SubmitEffect.insertJob :: l2 ∧
        SubmitEffect.pushQueue ∈ l2)
    ∧ (env.methodPost = true → env.formOk = true → env.fileOk = true →
        allowedAction env.action = true → env.createOk = true → env.copyOk = true →
        env.insertOk = false →
        (submitJobHandler env).httpStatus = 500 ∧
        (submitJobHandler env).insertedRecord = none ∧
        (submitJobHandler env).queuedMessage = none ∧
        SubmitEffect.pushQueue ∉ (submitJobHandler env).effects)
    ∧ (env.methodPost = true → env.formOk = true → env.fileOk = true →
        allowedAction env.action = true → env.createOk = true → env.copyOk = true →
        env.insertOk = true → env.pushOk = false →
        (submitJobHandler env).httpStatus = 503 ∧
        (submitJobHandler env).queuedMessage = none ∧
        ∃ row, (submitJobHandler env).insertedRecord = some row ∧
          row.status = gs ("QUEUED")) := by
  refine ⟨?_, ?_, ?_⟩
  · intro hp
    simp only [submitJobHandler] at hp ⊢
    split_ifs at hp ⊢ <;>
      first
        | exact absurd hp (by decide)
        | exact ⟨[SubmitEffect.createFile, SubmitEffect.copyFile],
            [SubmitEffect.pushQueue], rfl, by decide⟩
  · intro h1 h2 h3 ha h5 h6 h7
    simp [submitJobHandler, h1, h2, h3, ha, h5, h6, h7]
  · intro h1 h2 h3 ha h5 h6 h7 h8
    simp [submitJobHandler, h1, h2, h3, ha, h5, h6, h7, h8]

/-- Witness for submit_insert_precedes_push at concrete requests: the
INSERT-failure request yields 500 with nothing queued, the push-failure
request yields 503 with its QUEUED row retained, and the successful request
shows the insert placed before the push. -/
theorem submit_insert_precedes_push_witness :
    (submitJobHandler envInsertFail).httpStatus = 500 ∧
    (submitJobHandler envInsertFail).queuedMessage = none ∧
    (submitJobHandler envPushFail).httpStatus = 503 ∧
    (∃ row, (submitJobHandler envPushFail).insertedRecord = some row ∧
      row.status = gs ("QUEUED")) ∧
    (∃ l1 l2, (submitJobHandler envG).effects =
        l1 ++ SubmitEffect.insertJob :: l2 ∧ SubmitEffect.pushQueue ∈ l2) := by
  have hA := (submit_insert_precedes_push envInsertFail).2.1 rfl rfl rfl (by decide)
    rfl rfl rfl
  have hB := (submit_insert_precedes_push envPushFail).2.2 rfl rfl rfl (by decide)
    rfl rfl rfl rfl
  have hC := (submit_insert_precedes_push envG).1 (by decide)
  exact ⟨hA.1, hA.2.2.1, hB.1, hB.2.2, hC⟩

/-- C6 code bug, evaluated at the failing input: for the COMPLETED job j1
the status endpoint answers 200, but the body is not the claimed JSON
object — the COMPLETED branch appends a closing brace and the handler then
unconditionally appends another, leaving one opening brace against two
closing braces. The unknown-id side of the claim does hold (404). -/
theorem status_body_malformed_for_completed :
    (getJobStatusHandler db0 (gs ("j1"))).httpStatus = 200 ∧
    ((getJobStatusHandler db0 (gs ("j1"))).body.count '\x7b') = 1 ∧
    ((getJobStatusHandler db0 (gs ("j1"))).body.count '\x7d') = 2 ∧
    (getJobStatusHandler db0 (gs ("nope"))).httpStatus = 404 := by
  exact ⟨by decide, by decide, by decide, by decide⟩

/-- C7: the download endpoint serves a file only for a COMPLETED row whose
referenced output exists on disk; a QUEUED or PROCESSING row gets the 202
pending signal; an unknown (nonempty) id gets 404 Job not found.; a
COMPLETED row whose referenced file is missing gets 404 with a different
body, so the consistency anomaly is distinguishable from an unknown job. -/
theorem download_gating (db : JobStore) (fe : GoStr → Bool) (idStr : GoStr) :
    (∀ p, (downloadProcessedImageHandler db fe idStr).servedFile = some p →
      ∃ row, db idStr = some row ∧ row.status = gs ("COMPLETED") ∧
        row.output_path = some p ∧ fe p = true)
    ∧ (idStr ≠ [] → ∀ row, db idStr = some row →
        (row.status = gs ("QUEUED") ∨ row.status = gs ("PROCESSING")) →
        (downloadProcessedImageHandler db fe idStr).httpStatus = 202 ∧
        (downloadProcessedImageHandler db fe idStr).servedFile = none)
    ∧ (idStr ≠ [] → db idStr = none →
        (downloadProcessedImageHandler db fe idStr).httpStatus = 404 ∧
        (downloadProcessedImageHandler db fe idStr).body = gs ("Job not found."))
    ∧ (idStr ≠ [] → ∀ row p, db idStr = some row →
        row.status = gs ("COMPLETED") → row.output_path = some p → fe p = false →
        (downloadProcessedImageHandler db fe idStr).httpStatus = 404 ∧
        (downloadProcessedImageHandler db fe idStr).body =
          gs ("Processed file not found on disk.") ∧
        (downloadProcessedImageHandler db fe idStr).body ≠ gs ("Job not found.")) := by
  refine ⟨?_, ?_, ?_, ?_⟩
  · intro p hp
    unfold downloadProcessedImageHandler at hp
    split at hp <;> try exact Option.noConfusion hp
    split at hp <;> try exact Option.noConfusion hp
    split at hp <;> try exact Option.noConfusion hp
    split at hp <;> try exact Option.noConfusion hp
    split at hp <;> try exact Option.noConfusion hp
    injection hp with hp
    subst hp
    exact ⟨_, by assumption, by assumption, by assumption, by assumption⟩
  · intro hne row hrow hq
    have hne2 : ¬ row.status = gs ("COMPLETED") := by
      rcases hq with h | h <;> rw [h] <;> decide
    cases hop : row.output_path with
    | none => simp [downloadProcessedImageHandler, hrow, hne, hop]
    | some p => simp [downloadProcessedImageHandler, hrow, hne, hop, hne2]
  · intro hne hnone
    simp [downloadProcessedImageHandler, hne, hnone]
  · intro hne row p hrow hst hop hfe
    simp [downloadProcessedImageHandler, hrow, hne, hop, hst, hfe] <;> decide

/-- Witness for download_gating at concrete inputs over the fixture store:
QUEUED j2 is pending, an unknown id is 404 Job not found., and COMPLETED j1
with its file missing is 404 with the distinguishable missing-file body. -/
theorem download_gating_witness :
    ((downloadProcessedImageHandler db0 (fun _ => true) (gs ("j2"))).httpStatus = 202 ∧
      (downloadProcessedImageHandler db0 (fun _ => true) (gs ("j2"))).servedFile = none) ∧
    ((downloadProcessedImageHandler db0 (fun _ => true) (gs ("nope"))).httpStatus = 404 ∧
      (downloadProcessedImageHandler db0 (fun _ => true) (gs ("nope"))).body =
        gs ("Job not found.")) ∧
    ((downloadProcessedImageHandler db0 (fun _ => false) (gs ("j1"))).httpStatus = 404 ∧
      (downloadProcessedImageHandler db0 (fun _ => false) (gs ("j1"))).body ≠
        gs ("Job not found.")) := by
  have h1 := (download_gating db0 (fun _ => true) (gs ("j2"))).2.1 (by decide) recQ
    (by decide) (Or.inl rfl)
  have h2 := (download_gating db0 (fun _ => true) (gs ("nope"))).2.2.1 (by decide)
    (by decide)
  have h3 := (download_gating db0 (fun _ => false) (gs ("j1"))).2.2.2 (by decide) rec0
    (gs ("storage/out.jpg")) (by decide) rfl rfl rfl
  exact ⟨h1, h2, ⟨h3.1, h3.2.2⟩⟩

/-- C8: when a parsed task fails at any stage — opening the input, decoding
it, looking up or applying the transform, or saving the output — processTask
performs exactly the transitions PROCESSING then FAILED, the FAILED
transition persisting a non-empty diagnostic in the result (output path)
position; processTask is total, so it returns and the worker loop continues
with the next message. -/
theorem processTask_failure_sets_failed (msg : GoStr) (env : WorkerEnv)
    (jobID inputPath action params : GoStr)
    (hp : parseTaskMessage msg = some (jobID, inputPath, action, params))
    (hfail : ¬ taskSucceeds env action params) :
    ∃ d, (processTask msg env).updates =
      [(gs ("PROCESSING"), []), (gs ("FAILED"), d)] ∧ d ≠ [] := by
  have he := processTask_eval msg env jobID inputPath action params hp
  cases ho : env.openResult with
  | error e =>
    simp only [he, ho]
    exact ⟨_, rfl, append_ne_nil_left _ _ (append_ne_nil_left _ _
      (append_ne_nil_left _ _ (by decide)))⟩
  | ok u =>
    cases hd : env.decodeResult with
    | error e =>
      simp only [he, ho, hd]
      exact ⟨_, rfl, append_ne_nil_left _ _ (by decide)⟩
    | ok img =>
      cases hpi : processImage img action params with
      | error e =>
        simp only [he, ho, hd, hpi]
        exact ⟨_, rfl,
          append_ne_nil_left _ _ (append_ne_nil_left _ _ (append_ne_nil_left _ _
            (append_ne_nil_left _ _ (append_ne_nil_left _ _ (by decide)))))⟩
      | ok out =>
        cases hs : env.saveResult with
        | error e =>
          simp only [he, ho, hd, hpi, hs]
          exact ⟨_, rfl, append_ne_nil_left _ _ (by decide)⟩
        | ok v =>
          cases u
          cases v
          exact absurd ⟨ho, img, hd, ⟨out, hpi⟩, hs⟩ hfail

/-- Witness for processTask_failure_sets_failed: the unknown action blur
parses, every filesystem stage succeeds, yet the trace is PROCESSING then
FAILED with a non-empty diagnostic. -/
theorem processTask_failure_witness :
    ∃ d, (processTask (gs ("j1|storage/in.png|blur|")) envOk).updates =
      [(gs ("PROCESSING"), []), (gs ("FAILED"), d)] ∧ d ≠ [] := by
  refine processTask_failure_sets_failed _ envOk (gs ("j1")) (gs ("storage/in.png"))
    (gs ("blur")) [] (by decide) ?_
  rintro ⟨-, img, himg, ⟨out, hout⟩, -⟩
  injection himg with himg
  subst himg
  rw [show processImage img2 (gs ("blur")) [] =
    Except.error (gs ("unknown image processing action: ") ++ gs ("blur")) from rfl] at hout
  exact Except.noConfusion hout

/-- C10: the mixed-case action Grayscale passes submission validation (the
check lowercases the name) and the job is accepted with 202, but the
original casing is enqueued and the worker dispatcher matches it
case-sensitively: whenever the input opens and decodes, the job
deterministically ends with a FAILED transition whose diagnostic names the
unknown action. -/
theorem mixed_case_action_accepted_then_fails :
    (submitJobHandler envG).httpStatus = 202 ∧
    (submitJobHandler envG).queuedMessage =
      some (encodeTask (gs ("j1")) (gs ("storage/j1_a.png")) (gs ("Grayscale")) []) ∧
    (∀ env img, env.openResult = Except.ok () → env.decodeResult = Except.ok img →
      (processTask (encodeTask (gs ("j1")) (gs ("storage/j1_a.png")) (gs ("Grayscale")) [])
          env).updates =
        [(gs ("PROCESSING"), []),
         (gs ("FAILED"),
          gs ("error during image processing (Grayscale with params \x27\x27): unknown image processing action: Grayscale"))]) := by
  refine ⟨by decide, by decide, ?_⟩
  intro env img ho hd
  obtain ⟨eo, ed, es, et⟩ := env
  cases ho
  cases hd
  rfl

/-- Witness for mixed_case_action_accepted_then_fails under the all-success
worker environment. -/
theorem mixed_case_action_witness :
    (processTask (encodeTask (gs ("j1")) (gs ("storage/j1_a.png")) (gs ("Grayscale")) [])
        envOk).updates =
      [(gs ("PROCESSING"), []),
       (gs ("FAILED"),
        gs ("error during image processing (Grayscale with params \x27\x27): unknown image processing action: Grayscale"))] :=
  mixed_case_action_accepted_then_fails.2.2 envOk img2 rfl rfl
